import Mathlib

/-!
Shallow embedding of the RDBMS repository (src/rdbms): the typed value model
(`types.py`), the storage layer with tables and hash indexes (`storage.py`),
the execution engine (`engine.py`), and the literal parser (`parser.py`),
together with theorems settling the specification claims.

Python runtime values are modelled by `RDBMS.Value`; Python floats are
modelled by exact rationals. Python exceptions are modelled by `Except`.
Machine behaviour that the claims exercise (dict insertion order, `bool`
being an `int` subtype for `isinstance` and `==`, set-valued index buckets,
list-position identity) is carried over explicitly.
-/

namespace RDBMS

/-- A Python runtime value as it occurs in this program: `None`, `bool`,
`int`, `float` (modelled exactly as a rational) or `str`. -/
inductive Value where
  | vNull : Value
  | vBool (b : Bool) : Value
  | vInt (n : Int) : Value
  | vFloat (q : ℚ) : Value
  | vStr (s : String) : Value
  deriving DecidableEq, Repr

/-- Numeric view of a value: Python treats `bool` as an `int` subtype, so
`True == 1` holds; floats and ints compare numerically. -/
def Value.toNum : Value → Option ℚ
  | .vBool b => some (if b then 1 else 0)
  | .vInt n => some (n : ℚ)
  | .vFloat q => some q
  | _ => none

/-- Python `==` on the values of this program. -/
def pyEqB (a b : Value) : Bool :=
  match a.toNum, b.toNum with
  | some x, some y => x = y
  | _, _ =>
    match a, b with
    | .vStr s, .vStr t => s = t
    | .vNull, .vNull => true
    | _, _ => false

/-- Python `type(v).__name__` for the values of this program. -/
def Value.typeName : Value → String
  | .vNull => "NoneType"
  | .vBool _ => "bool"
  | .vInt _ => "int"
  | .vFloat _ => "float"
  | .vStr _ => "str"

/-- Python `str(v)` for the values of this program (float rendering is a
simplified stand-in for `repr`; no claim exercises it). -/
def Value.pyStr : Value → String
  | .vNull => "None"
  | .vBool b => if b then "True" else "False"
  | .vInt n => toString n
  | .vFloat q => toString q
  | .vStr s => s

/-- Lexicographic comparison of character lists by code point, as Python
compares strings. -/
def charListCmp : List Char → List Char → Ordering
  | [], [] => .eq
  | [], _ :: _ => .lt
  | _ :: _, [] => .gt
  | a :: as, b :: bs =>
    if a.val < b.val then .lt
    else if b.val < a.val then .gt
    else charListCmp as bs

/-- Python ordering comparison: defined for numeric pairs and string pairs,
a `TypeError` otherwise (including any comparison with `None`). -/
def pyCmp (a b : Value) : Option Ordering :=
  match a.toNum, b.toNum with
  | some x, some y => some (compare x y)
  | _, _ =>
    match a, b with
    | .vStr s, .vStr t => some (charListCmp s.toList t.toList)
    | _, _ => none

/-- Message of the `TypeError` Python raises on an unsupported comparison. -/
def cmpTypeError (op : String) (a b : Value) : String :=
  "'" ++ op ++ "' not supported between instances of '" ++ a.typeName ++
    "' and '" ++ b.typeName ++ "'"

/-- Decidable equality for modelled Python exceptions and returns. -/
instance instDecEqExcept {ε α : Type} [DecidableEq ε] [DecidableEq α] :
    DecidableEq (Except ε α)
  | .error e, .error f =>
    if h : e = f then .isTrue (by rw [h])
    else .isFalse (fun hc => h (by injection hc))
  | .error _, .ok _ => .isFalse (fun hc => Except.noConfusion hc)
  | .ok _, .error _ => .isFalse (fun hc => Except.noConfusion hc)
  | .ok x, .ok y =>
    if h : x = y then .isTrue (by rw [h])
    else .isFalse (fun hc => h (by injection hc))

/-- The column data types of `types.py` (`DataType`). -/
inductive DataType where
  | INT : DataType
  | TEXT : DataType
  | BOOLEAN : DataType
  deriving DecidableEq, Repr

/-- The `.value` string of a `DataType` member. -/
def DataType.value : DataType → String
  | .INT => "INT"
  | .TEXT => "TEXT"
  | .BOOLEAN => "BOOLEAN"

/-- A column descriptor (`types.py`, `Column`). -/
structure Column where
  name : String
  data_type : DataType
  primary_key : Bool := false
  unique : Bool := false
  nullable : Bool := true
  deriving DecidableEq, Repr

/-- `Column.validate`: `None` is accepted iff the column is nullable;
otherwise an exact `isinstance` check. Python's `isinstance(value, int)`
is true for `bool` values as well, so an INT column accepts booleans. -/
def Column.validate (c : Column) (v : Value) : Bool :=
  match v with
  | .vNull => c.nullable
  | .vBool _ => match c.data_type with
    | .INT => true
    | .BOOLEAN => true
    | .TEXT => false
  | .vInt _ => c.data_type = .INT
  | .vFloat _ => false
  | .vStr _ => c.data_type = .TEXT

/-- A table schema (`types.py`, `Schema`). -/
structure Schema where
  table_name : String
  columns : List Column
  deriving DecidableEq, Repr

/-- `Schema.get_column`: first column with the given name. -/
def Schema.get_column (s : Schema) (name : String) : Option Column :=
  s.columns.find? (fun c => c.name = name)

/-- `Schema.get_primary_key_column`: first column marked primary key. -/
def Schema.get_primary_key_column (s : Schema) : Option Column :=
  s.columns.find? (fun c => c.primary_key)

/-- A Python dict from column names to values, modelled as an association
list in insertion order with unique keys. -/
abbrev Dict := List (String × Value)

/-- Dict key lookup. -/
def dictGet? (d : Dict) (k : String) : Option Value :=
  (d.find? (fun p => p.1 = k)).map (fun p => p.2)

/-- Python `d.get(k)`: the stored value, or `None` when the key is absent. -/
def dictGet (d : Dict) (k : String) : Value :=
  (dictGet? d k).getD .vNull

/-- Python `d[k] = v`: overwrite in place when the key exists (keeping its
insertion position), append otherwise. -/
def dictSet (d : Dict) (k : String) (v : Value) : Dict :=
  match d with
  | [] => [(k, v)]
  | (k', v') :: rest =>
    if k' = k then (k', v) :: rest else (k', v') :: dictSet rest k v

/-- Build a dict from parallel key and value lists, as the engine's
`{col: val for col, val in zip(...)}` does. -/
def dictOfZip (ks : List String) (vs : List Value) : Dict :=
  (List.zip ks vs).foldl (fun d p => dictSet d p.1 p.2) []

/-- A row (`types.py`, `Row`): its values dict. The schema reference Python
rows carry is passed explicitly to `rowValidate`. -/
structure Row where
  values : Dict
  deriving DecidableEq, Repr

/-- `Row.get`: dict `.get`, `None` when absent. -/
def Row.get (r : Row) (column_name : String) : Value :=
  dictGet r.values column_name

/-- `Row.to_dict`: a copy of the values dict. -/
def Row.to_dict (r : Row) : Dict :=
  r.values

/-- `Row.validate`: every non-nullable column present, every present value
conforming to its column's type. -/
def rowValidate (schema : Schema) (r : Row) : Bool :=
  schema.columns.all (fun col =>
    match dictGet? r.values col.name with
    | none => col.nullable
    | some v => col.validate v)

/-- Python dict equality on rows: same key set and `==`-equal values,
insertion order ignored (dataclass `Row.__eq__` compares the values dicts;
rows of one table share the schema object). -/
def rowEqB (a b : Row) : Bool :=
  (a.values.all (fun p => match dictGet? b.values p.1 with
    | some w => pyEqB p.2 w
    | none => false)) &&
  (b.values.all (fun p => (dictGet? a.values p.1).isSome))

/-- A hash index (`storage.py`, `HashIndex`): a dict from key values to sets
of row ids. Buckets are modelled as insertion-ordered duplicate-free lists;
keys compare by Python `==` (so `1`, `1.0` and `True` share a bucket). -/
structure HashIndex where
  entries : List (Value × List Nat)
  deriving DecidableEq, Repr

/-- The empty index. -/
def HashIndex.empty : HashIndex := ⟨[]⟩

/-- `HashIndex.lookup`: the bucket for a key, `[]` when absent. -/
def HashIndex.lookup (idx : HashIndex) (key : Value) : List Nat :=
  match idx.entries.find? (fun e => pyEqB e.1 key) with
  | some e => e.2
  | none => []

/-- `HashIndex.add`: create the bucket if needed, then add the row id
(set semantics: no duplicate ids). -/
def HashIndex.add (idx : HashIndex) (key : Value) (row_id : Nat) : HashIndex :=
  ⟨addEntries idx.entries⟩
where
  addEntries : List (Value × List Nat) → List (Value × List Nat)
    | [] => [(key, [row_id])]
    | e :: rest =>
      if pyEqB e.1 key then
        (e.1, if e.2.contains row_id then e.2 else e.2 ++ [row_id]) :: rest
      else e :: addEntries rest

/-- `HashIndex.remove`: discard the row id from the key's bucket when
present, dropping the bucket if it becomes empty. -/
def HashIndex.remove (idx : HashIndex) (key : Value) (row_id : Nat) : HashIndex :=
  ⟨removeEntries idx.entries⟩
where
  removeEntries : List (Value × List Nat) → List (Value × List Nat)
    | [] => []
    | e :: rest =>
      if pyEqB e.1 key then
        let ids := e.2.filter (fun i => i ≠ row_id)
        if ids.isEmpty then rest else (e.1, ids) :: rest
      else e :: removeEntries rest

/-- A table (`storage.py`, `Table`): schema, positional row list, the
`next_row_id` counter, the primary-key index (present in Python exactly when
the schema has a primary-key column; modelled as always carried and used
only under that guard), and one index per unique column in schema order. -/
structure Table where
  schema : Schema
  rows : List Row
  next_row_id : Nat
  primary_key_index : HashIndex
  unique_indexes : List (String × HashIndex)
  deriving DecidableEq, Repr

/-- `Table.__init__`: empty rows, counter 0, fresh indexes from the schema. -/
def Table.create (schema : Schema) : Table :=
  { schema := schema
    rows := []
    next_row_id := 0
    primary_key_index := HashIndex.empty
    unique_indexes :=
      (schema.columns.filter (fun c => c.unique)).map (fun c => (c.name, HashIndex.empty)) }

/-- Lookup in the `unique_indexes` dict. -/
def Table.uniqueIndex? (t : Table) (name : String) : Option HashIndex :=
  (t.unique_indexes.find? (fun e => e.1 = name)).map (fun e => e.2)

/-- The non-nullable columns absent from the insert values, with the message
fragments `insert` builds for them. -/
def missingColumns (schema : Schema) (values : Dict) : List Column :=
  schema.columns.filter (fun col =>
    (dictGet? values col.name).isNone && !col.nullable)

/-- The first column whose present value fails its type check, as the
type-mismatch loop of `insert` finds it. -/
def firstMismatch (schema : Schema) (values : Dict) : Option Column :=
  schema.columns.find? (fun col =>
    match dictGet? values col.name with
    | some v => !col.validate v
    | none => false)

/-- The duplicate-primary-key check of `Table.insert`: the error message
when the values carry a primary-key value already present in the PK index. -/
def pkViolation? (t : Table) (values : Dict) : Option String :=
  match t.schema.get_primary_key_column with
  | some pk_col =>
    match dictGet? values pk_col.name with
    | some pk_value =>
      if (t.primary_key_index.lookup pk_value).isEmpty then none
      else some ("Primary key " ++ pk_col.name ++ "=" ++ pk_value.pyStr ++ " already exists")
    | none => none
  | none => none

/-- The unique-constraint check of `Table.insert`: the error message of the
first unique index (in creation order) already holding the incoming value. -/
def uniqueViolation? (t : Table) (values : Dict) : Option String :=
  (t.unique_indexes.find? (fun e =>
    match dictGet? values e.1 with
    | some v => !(e.2.lookup v).isEmpty
    | none => false)).map (fun e => "Unique constraint violated on " ++ e.1)

/-- The appended table state of a successful insert: row appended, counter
bumped, the new row id added under the primary-key and unique values. -/
def Table.insertAppend (t : Table) (values : Dict) (row : Row) : Table × Nat :=
  let row_id := t.next_row_id
  let pkIndex :=
    match t.schema.get_primary_key_column with
    | some pk_col =>
      match dictGet? values pk_col.name with
      | some pk_value => t.primary_key_index.add pk_value row_id
      | none => t.primary_key_index
    | none => t.primary_key_index
  let uniques := t.unique_indexes.map (fun e =>
    match dictGet? values e.1 with
    | some v => (e.1, e.2.add v row_id)
    | none => e)
  ({ t with
      rows := t.rows ++ [row]
      next_row_id := t.next_row_id + 1
      primary_key_index := pkIndex
      unique_indexes := uniques }, row_id)

/-- The primary-key and unique-constraint checks of `Table.insert`, then the
append and index updates, exactly in source order. -/
def Table.insertChecked (t : Table) (values : Dict) (row : Row) :
    Except String (Table × Nat) :=
  match pkViolation? t values with
  | some e => .error e
  | none =>
    match uniqueViolation? t values with
    | some e => .error e
    | none => .ok (t.insertAppend values row)

/-- `Table.insert`: validate the row (with the detailed failure messages the
source builds), then run the constraint checks and the append. In the source
a failed validation with neither a missing column nor a type mismatch would
fall through to the constraint checks; that branch is kept (it is proved
unreachable below). -/
def Table.insert (t : Table) (values : Dict) : Except String (Table × Nat) :=
  if !rowValidate t.schema ⟨values⟩ then
    if !(missingColumns t.schema values).isEmpty then
      .error ("Missing required column(s): " ++
        String.intercalate ", "
          ((missingColumns t.schema values).map
            (fun col => col.name ++ " (" ++ col.data_type.value ++ ")")))
    else
      match firstMismatch t.schema values with
      | some col =>
        .error ("Invalid type for column '" ++ col.name ++ "': expected " ++
          col.data_type.value ++ ", got " ++ (dictGet values col.name).typeName)
      | none => t.insertChecked values ⟨values⟩
  else t.insertChecked values ⟨values⟩

/-- `Table.get_by_primary_key`: `None` when the table has no primary-key
index; otherwise bucket lookup and positional access `self.rows[ids[0]]`,
which raises `IndexError` when the stored position is out of range. -/
def Table.get_by_primary_key (t : Table) (key : Value) : Except String (Option Row) :=
  match t.schema.get_primary_key_column with
  | none => .ok none
  | some _ =>
    match t.primary_key_index.lookup key with
    | [] => .ok none
    | i :: _ =>
      match t.rows.get? i with
      | some r => .ok (some r)
      | none => .error "list index out of range"

/-- `Table.scan`: a copy of the row list. -/
def Table.scan (t : Table) : List Row :=
  t.rows

/-- `Table._evaluate_condition`: the six comparison operators; ordering
comparisons raise `TypeError` on unsupported operand types, any other
operator string yields `False`. -/
def evalCondition (row_value : Value) (operator : String) (value : Value) :
    Except String Bool :=
  if operator = "=" then .ok (pyEqB row_value value)
  else if operator = "!=" then .ok (!pyEqB row_value value)
  else if operator = "<" then
    match pyCmp row_value value with
    | some o => .ok (o = .lt)
    | none => .error (cmpTypeError "<" row_value value)
  else if operator = ">" then
    match pyCmp row_value value with
    | some o => .ok (o = .gt)
    | none => .error (cmpTypeError ">" row_value value)
  else if operator = "<=" then
    match pyCmp row_value value with
    | some o => .ok (o ≠ .gt)
    | none => .error (cmpTypeError "<=" row_value value)
  else if operator = ">=" then
    match pyCmp row_value value with
    | some o => .ok (o ≠ .lt)
    | none => .error (cmpTypeError ">=" row_value value)
  else .ok false

/-- `Table.filter`: linear scan keeping the rows satisfying the condition;
a comparison `TypeError` propagates. -/
def Table.filterRows (t : Table) (column_name : String) (operator : String)
    (value : Value) : Except String (List Row) :=
  t.rows.foldlM
    (fun acc row => do
      let keep ← evalCondition (row.get column_name) operator value
      pure (if keep then acc ++ [row] else acc))
    []

/-- The value-mutation loop of `Table.update`: assignments applied left to
right, stopping with the source's error at the first unknown column or
failed type check; the dict mutated so far is kept (the Python loop mutates
the row in place before raising). -/
def updateValues (schema : Schema) (vals : Dict) :
    List (String × Value) → Except (String × Dict) Dict
  | [] => .ok vals
  | (key, value) :: rest =>
    match schema.get_column key with
    | none => .error ("Column " ++ key ++ " not found", vals)
    | some col =>
      if !col.validate value then .error ("Invalid value for column " ++ key, vals)
      else updateValues schema (dictSet vals key value) rest

/-- The index maintenance of `Table.update`: for a changed primary-key or
unique-column value, remove the old entry and add the new one keyed to the
row's position. -/
def updateIndexes (t : Table) (row_index : Nat) (old_values : Dict)
    (updates : List (String × Value)) : Table :=
  let pkIndex :=
    match t.schema.get_primary_key_column with
    | some pk_col =>
      match dictGet? updates pk_col.name with
      | some new_pk =>
        let old_pk := dictGet old_values pk_col.name
        if pyEqB old_pk new_pk then t.primary_key_index
        else (t.primary_key_index.remove old_pk row_index).add new_pk row_index
      | none => t.primary_key_index
    | none => t.primary_key_index
  let uniques := t.unique_indexes.map (fun e =>
    match dictGet? updates e.1 with
    | some new_val =>
      let old_val := dictGet old_values e.1
      if pyEqB old_val new_val then e
      else (e.1, (e.2.remove old_val row_index).add new_val row_index)
    | none => e)
  { t with primary_key_index := pkIndex, unique_indexes := uniques }

/-- `Table.update`: bounds check, in-place value mutation with possible
mid-loop failure, then index maintenance. The returned table reflects the
state after the call, also when it fails partway. -/
def Table.update (t : Table) (row_index : Nat) (updates : List (String × Value)) :
    Except String Unit × Table :=
  match t.rows.get? row_index with
  | none => (.error "Row not found", t)
  | some row =>
    let old_values := row.values
    match updateValues t.schema row.values updates with
    | .error (e, partialVals) =>
      (.error e, { t with rows := t.rows.set row_index ⟨partialVals⟩ })
    | .ok newVals =>
      let t' := { t with rows := t.rows.set row_index ⟨newVals⟩ }
      (.ok (), updateIndexes t' row_index old_values updates)

/-- `Table.delete`: bounds check, removal of the row's current index entries
keyed to `row_index`, then removal from the row list (shifting every later
row's position without touching their index entries). -/
def Table.delete (t : Table) (row_index : Nat) : Except String Table :=
  match t.rows.get? row_index with
  | none => .error "Row not found"
  | some row =>
    let pkIndex :=
      match t.schema.get_primary_key_column with
      | some pk_col => t.primary_key_index.remove (row.get pk_col.name) row_index
      | none => t.primary_key_index
    let uniques := t.unique_indexes.map (fun e =>
      (e.1, e.2.remove (row.get e.1) row_index))
    .ok { t with
            rows := t.rows.eraseIdx row_index
            primary_key_index := pkIndex
            unique_indexes := uniques }

/-- The persisted table document (`Table.save` writes it as JSON; the file
round trip is modelled as the in-memory document, whose scalar values JSON
preserves). -/
structure TableDoc where
  schema : Schema
  rows : List Dict
  next_row_id : Nat
  deriving DecidableEq, Repr

/-- `Table.save`: schema dict, row dicts, counter. -/
def Table.save (t : Table) : TableDoc :=
  { schema := t.schema
    rows := t.rows.map Row.to_dict
    next_row_id := t.next_row_id }

/-- `Table.load`: fresh table from the schema, counter and rows from the
document, indexes rebuilt from row positions skipping `None` values. -/
def Table.load (doc : TableDoc) : Table :=
  let base := Table.create doc.schema
  let withRows := { base with
    rows := doc.rows.map (fun d => ⟨d⟩)
    next_row_id := doc.next_row_id }
  (List.range withRows.rows.length).foldl
    (fun t i =>
      match t.rows.get? i with
      | none => t
      | some row =>
        let t1 :=
          match doc.schema.get_primary_key_column with
          | some pk_col =>
            if row.get pk_col.name ≠ .vNull then
              { t with primary_key_index := t.primary_key_index.add (row.get pk_col.name) i }
            else t
          | none => t
        { t1 with unique_indexes := t1.unique_indexes.map (fun e =>
            if row.get e.1 ≠ .vNull then (e.1, e.2.add (row.get e.1) i) else e) })
    withRows

/-- A parsed CREATE TABLE statement (`parser.py`, `CreateTableStmt`). -/
structure CreateTableStmt where
  table_name : String
  columns : List Column
  deriving DecidableEq, Repr

/-- A parsed INSERT statement (`parser.py`, `InsertStmt`). -/
structure InsertStmt where
  table_name : String
  columns : List String
  values : List Value
  deriving DecidableEq, Repr

/-- A parsed SELECT statement (`parser.py`, `SelectStmt`); an empty column
list means `SELECT *`. -/
structure SelectStmt where
  table_name : String
  columns : List String
  where_clause : Option (String × String × Value) := none
  join_table : Option String := none
  join_on : Option (String × String) := none
  deriving DecidableEq, Repr

/-- A parsed UPDATE statement (`parser.py`, `UpdateStmt`); the SET dict in
insertion order. -/
structure UpdateStmt where
  table_name : String
  updates : List (String × Value)
  where_clause : Option (String × String × Value) := none
  deriving DecidableEq, Repr

/-- A parsed DELETE statement (`parser.py`, `DeleteStmt`). -/
structure DeleteStmt where
  table_name : String
  where_clause : Option (String × String × Value) := none
  deriving DecidableEq, Repr

/-- A parsed DROP TABLE statement (`parser.py`, `DropTableStmt`). -/
structure DropTableStmt where
  table_name : String
  deriving DecidableEq, Repr

/-- A parsed EXPLAIN statement (`parser.py`, `ExplainStmt`). -/
structure ExplainStmt where
  query : String
  deriving DecidableEq, Repr

/-- The closed variant of the seven statement kinds dispatched by
`ExecutionEngine.execute`. -/
inductive Stmt where
  | createTable (s : CreateTableStmt)
  | insert (s : InsertStmt)
  | select (s : SelectStmt)
  | update (s : UpdateStmt)
  | delete (s : DeleteStmt)
  | dropTable (s : DropTableStmt)
  | explain (s : ExplainStmt)
  deriving DecidableEq, Repr

/-- Execution statistics (`engine.py`, `ExecutionStats`). -/
structure ExecutionStats where
  rows_scanned : Nat := 0
  rows_returned : Nat := 0
  index_used : Option String := none
  execution_time_ms : ℚ := 0
  deriving DecidableEq, Repr

/-- The uniform result envelope (`engine.py`, `QueryResult`). -/
structure QueryResult where
  success : Bool
  data : List Dict := []
  message : String := ""
  stats : ExecutionStats := {}
  deriving DecidableEq, Repr

/-- A database (`storage.py`, `Database`): the name-to-table dict. File
system interaction (directory scan, per-table JSON files) is outside the
model; `save_all` is a no-op on this state. -/
structure Database where
  tables : List (String × Table)
  deriving DecidableEq, Repr

/-- `Database.get_table`. -/
def Database.get_table (db : Database) (name : String) : Option Table :=
  (db.tables.find? (fun e => e.1 = name)).map (fun e => e.2)

/-- Replacement of a table's entry: the Python code mutates the table object
held in the dict, which this models by rebinding the name in place. -/
def tablesSet : List (String × Table) → String → Table → List (String × Table)
  | [], name, t => [(name, t)]
  | (n, t') :: rest, name, t =>
    if n = name then (n, t) :: rest else (n, t') :: tablesSet rest name t

/-- In-place update of one table of the database. -/
def Database.setTable (db : Database) (name : String) (t : Table) : Database :=
  ⟨tablesSet db.tables name t⟩

/-- `Database.create_table`: fails when the name is taken, else registers a
fresh table (the `table.save()` call is a no-op here). -/
def Database.create_table (db : Database) (schema : Schema) : Except String Database :=
  if (db.get_table schema.table_name).isSome then
    .error ("Table " ++ schema.table_name ++ " already exists")
  else .ok ⟨db.tables ++ [(schema.table_name, Table.create schema)]⟩

/-- A row flowing through `_execute_select`: a plain table row, or a merged
join row (`engine.py`, `_JoinedRow`) carrying its data dict and the two
table names. -/
inductive SelRow where
  | plain (r : Row)
  | joined (data : Dict) (left_table right_table : String)
  deriving DecidableEq, Repr

/-- `get` on a select row: plain rows use dict `.get`; joined rows try the
key directly, then the left-qualified, then the right-qualified form. -/
def SelRow.get (r : SelRow) (col_name : String) : Value :=
  match r with
  | .plain row => row.get col_name
  | .joined data lt rt =>
    match dictGet? data col_name with
    | some v => v
    | none =>
      match dictGet? data (lt ++ "." ++ col_name) with
      | some v => v
      | none =>
        match dictGet? data (rt ++ "." ++ col_name) with
        | some v => v
        | none => .vNull

/-- `to_dict` on a select row. -/
def SelRow.to_dict : SelRow → Dict
  | .plain row => row.to_dict
  | .joined data _ _ => data

/-- The merged dict of `_execute_join`: left row's items under
`leftTable.key`, then right row's items under `rightTable.key`. -/
def qualifyMerge (lt : String) (ld : Dict) (rt : String) (rd : Dict) : Dict :=
  rd.foldl (fun m p => dictSet m (rt ++ "." ++ p.1) p.2)
    (ld.foldl (fun m p => dictSet m (lt ++ "." ++ p.1) p.2) [])

/-- Python `s.split(".")` piece accumulation: split at every dot, keeping
empty pieces. -/
def splitOnDotAux (cur : List Char) : List Char → List (List Char)
  | [] => [cur.reverse]
  | c :: rest =>
    if c = '.' then cur.reverse :: splitOnDotAux [] rest
    else splitOnDotAux (c :: cur) rest

/-- Python `s.split(".")` restricted to the exactly-two unpacking the join
code performs; any other shape raises. -/
def splitDot2 (s : String) : Except String (String × String) :=
  match (splitOnDotAux [] s.toList).map String.mk with
  | [a, b] => .ok (a, b)
  | _ => .error "values to unpack in join condition"

/-- `ExecutionEngine._execute_join`: nested-loop equality join of the
filtered left rows against a full scan of the right table, one merged row
per matching ordered pair. Returns the joined rows and the right table's
row count (added to `rows_scanned`). -/
def execJoin (db : Database) (left_rows : List Row) (stmt : SelectStmt) :
    Except String (List SelRow × Nat) :=
  match stmt.join_table with
  | none => .error "join table missing"
  | some jt =>
    match db.get_table jt with
    | none => .error ("Table " ++ jt ++ " not found")
    | some right_table =>
      match stmt.join_on with
      | none => .error "cannot unpack join condition"
      | some (left_col_full, right_col_full) =>
        match splitDot2 left_col_full, splitDot2 right_col_full with
        | .error e, _ => .error e
        | .ok _, .error e => .error e
        | .ok (left_table_name, left_col), .ok (right_table_name, right_col) =>
          let right_rows := right_table.scan
          let result := left_rows.flatMap (fun left_row =>
            right_rows.filterMap (fun right_row =>
              if pyEqB (left_row.get left_col) (right_row.get right_col) then
                some (SelRow.joined
                  (qualifyMerge left_table_name left_row.to_dict
                    right_table_name right_row.to_dict)
                  left_table_name right_table_name)
              else none))
          .ok (result, right_rows.length)

/-- The projection and result shaping of `_execute_select`: named columns
looked up one by one, otherwise each row's full dict; message and stats from
the shaped data. -/
def selResult (stmt : SelectStmt) (rows : List SelRow) (scanned : Nat) : QueryResult :=
  let result_data := rows.map (fun row =>
    if !stmt.columns.isEmpty then
      stmt.columns.foldl (fun d col => dictSet d col (row.get col)) []
    else row.to_dict)
  { success := true
    data := result_data
    message := "Query returned " ++ toString result_data.length ++ " row(s)"
    stats := { rows_scanned := scanned, rows_returned := rows.length } }

/-- `ExecutionEngine._execute_select`: filter or scan, optional join,
projection, stats. This handler has no inner `try`, so its raised errors
reach the `execute` boundary. -/
def execSelect (db : Database) (stmt : SelectStmt) : Except String QueryResult :=
  match db.get_table stmt.table_name with
  | none => .ok { success := false, message := "Table " ++ stmt.table_name ++ " not found" }
  | some table =>
    let scanned := table.rows.length
    match (match stmt.where_clause with
           | some (col_name, operator, value) => table.filterRows col_name operator value
           | none => .ok table.scan) with
    | .error e => .error e
    | .ok baseRows =>
      match stmt.join_table with
      | some _ =>
        match execJoin db baseRows stmt with
        | .error e => .error e
        | .ok (joinedRows, rightCount) =>
          .ok (selResult stmt joinedRows (scanned + rightCount))
      | none => .ok (selResult stmt (baseRows.map SelRow.plain) scanned)

/-- `ExecutionEngine._execute_create_table` (inner `try` included). -/
def execCreateTable (db : Database) (stmt : CreateTableStmt) : QueryResult × Database :=
  let schema : Schema := { table_name := stmt.table_name, columns := stmt.columns }
  match db.create_table schema with
  | .ok db' =>
    ({ success := true, message := "Table " ++ stmt.table_name ++ " created successfully" }, db')
  | .error e => ({ success := false, message := e }, db)

/-- `ExecutionEngine._execute_insert` (inner `try` included): build the
values dict from the zipped column and value lists, insert, persist
(a no-op on this state), report the returned row id. -/
def execInsert (db : Database) (stmt : InsertStmt) : QueryResult × Database :=
  match db.get_table stmt.table_name with
  | none => ({ success := false, message := "Table " ++ stmt.table_name ++ " not found" }, db)
  | some table =>
    let values := dictOfZip stmt.columns stmt.values
    match table.insert values with
    | .ok (t', row_id) =>
      ({ success := true, message := "1 row inserted (ID: " ++ toString row_id ++ ")" },
        db.setTable stmt.table_name t')
    | .error e => ({ success := false, message := e }, db)

/-- The index-collection pass of `_execute_update`'s WHERE branch: the
ascending positions of the rows satisfying the predicate (a comparison
`TypeError` propagates to the handler's `try`). -/
def collectIndices (t : Table) (col_name operator : String) (value : Value) :
    Except String (List Nat) :=
  (t.rows.enum.foldlM
    (fun acc p => do
      let keep ← evalCondition (p.2.get col_name) operator value
      pure (if keep then acc ++ [p.1] else acc))
    ([] : List Nat))

/-- The per-row application loop of `_execute_update`: apply the updates at
each listed position in order, stopping at the first failure with the
partially mutated table kept. Returns the rows-updated count. -/
def updateLoop (t : Table) (updates : List (String × Value)) :
    List Nat → (Except String Unit) × Table × Nat
  | [] => (.ok (), t, 0)
  | i :: rest =>
    match t.update i updates with
    | (.ok _, t') =>
      let (r, t'', n) := updateLoop t' updates rest
      (r, t'', n + 1)
    | (.error e, t') => (.error e, t', 0)

/-- `ExecutionEngine._execute_update` (inner `try` included): with a WHERE
clause, collect matching positions then update them in reverse order;
without one, update every position ascending. A failure partway leaves the
rows already mutated in place, as the caught in-place mutation does. -/
def execUpdate (db : Database) (stmt : UpdateStmt) : QueryResult × Database :=
  match db.get_table stmt.table_name with
  | none => ({ success := false, message := "Table " ++ stmt.table_name ++ " not found" }, db)
  | some table =>
    let indicesE :=
      match stmt.where_clause with
      | some (col_name, operator, value) =>
        (collectIndices table col_name operator value).map List.reverse
      | none => .ok (List.range table.rows.length)
    match indicesE with
    | .error e => ({ success := false, message := e }, db)
    | .ok indices =>
      match updateLoop table stmt.updates indices with
      | (.ok _, t', updated) =>
        ({ success := true, message := toString updated ++ " row(s) updated" },
          db.setTable stmt.table_name t')
      | (.error e, t', _) =>
        ({ success := false, message := e }, db.setTable stmt.table_name t')

/-- The descending deletion loop of `_execute_delete`'s WHERE branch:
`for i in range(len(rows)-1, -1, -1): if rows[i] in rows_to_delete:
delete(i)`, membership by Python row equality. The argument is one past the
current index. -/
def deleteLoop (t : Table) (rows_to_delete : List Row) : Nat → Table × Nat
  | 0 => (t, 0)
  | i + 1 =>
    match t.rows.get? i with
    | some r =>
      if rows_to_delete.any (fun r' => rowEqB r r') then
        match t.delete i with
        | .ok t' =>
          let (t'', d) := deleteLoop t' rows_to_delete i
          (t'', d + 1)
        | .error _ => deleteLoop t rows_to_delete i
      else deleteLoop t rows_to_delete i
    | none => deleteLoop t rows_to_delete i

/-- `ExecutionEngine._execute_delete` (inner `try` included): with a WHERE
clause, filter then delete matching positions from the highest down; without
one, clear the row list — the source touches no index there, so every index
entry survives a delete-all. -/
def execDelete (db : Database) (stmt : DeleteStmt) : QueryResult × Database :=
  match db.get_table stmt.table_name with
  | none => ({ success := false, message := "Table " ++ stmt.table_name ++ " not found" }, db)
  | some table =>
    match stmt.where_clause with
    | some (col_name, operator, value) =>
      match table.filterRows col_name operator value with
      | .error e => ({ success := false, message := e }, db)
      | .ok rows_to_delete =>
        let (t', deleted) := deleteLoop table rows_to_delete table.rows.length
        ({ success := true, message := toString deleted ++ " row(s) deleted" },
          db.setTable stmt.table_name t')
    | none =>
      let deleted := table.rows.length
      let t' := { table with rows := [] }
      ({ success := true, message := toString deleted ++ " row(s) deleted" },
        db.setTable stmt.table_name t')

/-- `ExecutionEngine._execute_drop_table` (inner `try` included): remove the
table from the map (the file removal is a no-op here). -/
def execDropTable (db : Database) (stmt : DropTableStmt) : QueryResult × Database :=
  match db.get_table stmt.table_name with
  | none => ({ success := false, message := "Table " ++ stmt.table_name ++ " not found" }, db)
  | some _ =>
    ({ success := true, message := "Table " ++ stmt.table_name ++ " dropped successfully" },
      ⟨db.tables.filter (fun e => e.1 ≠ stmt.table_name)⟩)

/-- `ExecutionEngine._execute_explain`: the constant acknowledgement. -/
def execExplain (stmt : ExplainStmt) : QueryResult :=
  { success := true
    message := "EXPLAIN: Analysis of query '" ++ stmt.query ++ "' would be shown here" }

/-- The dispatch body of `ExecutionEngine.execute` before its outer
`try/except`: every handler except SELECT carries its own `try` and is
total, so only SELECT can surface an error here. -/
def executeCore (db : Database) : Stmt → Except String (QueryResult × Database)
  | .createTable s => .ok (execCreateTable db s)
  | .insert s => .ok (execInsert db s)
  | .select s => (execSelect db s).map (fun q => (q, db))
  | .update s => .ok (execUpdate db s)
  | .delete s => .ok (execDelete db s)
  | .dropTable s => .ok (execDropTable db s)
  | .explain s => .ok (execExplain s, db)

/-- `ExecutionEngine.execute`: the dispatch wrapped in the outer
`try/except Exception`, every raised error converted to a failed
`QueryResult` with an `Error: `-prefixed message. -/
def execute (db : Database) (stmt : Stmt) : QueryResult × Database :=
  match executeCore db stmt with
  | .ok r => r
  | .error e => ({ success := false, message := "Error: " ++ e }, db)

/-- The numeric value of a digit list (most significant first; 0 for the
empty list). -/
def digitsVal (l : List Char) : Nat :=
  l.foldl (fun n c => n * 10 + (c.toNat - 48)) 0

/-- A nonempty all-digit character list, or nothing. -/
def decDigits? (l : List Char) : Option Nat :=
  if l ≠ [] ∧ l.all (fun c => c.isDigit) then some (digitsVal l) else none

/-- Python `int(value_str)` on an already-stripped string: an optional sign
followed by a nonempty digit run. -/
def intParse (s : String) : Option Int :=
  match s.toList with
  | [] => none
  | c :: rest =>
    if c = '+' then (decDigits? rest).map (fun n => (n : Int))
    else if c = '-' then (decDigits? rest).map (fun n => -(n : Int))
    else (decDigits? (c :: rest)).map (fun n => (n : Int))

/-- Split a character list at the first character satisfying the predicate;
the second component is `none` when no such character occurs. -/
def splitAtFirst (p : Char → Bool) : List Char → List Char × Option (List Char)
  | [] => ([], none)
  | c :: rest =>
    if p c then ([], some rest)
    else
      let (a, b) := splitAtFirst p rest
      (c :: a, b)

/-- The mantissa of a Python float literal: digits with an optional decimal
point, at least one digit overall. -/
def mantissa? (l : List Char) : Option ℚ :=
  match splitAtFirst (fun c => c = '.') l with
  | (ip, none) => (decDigits? ip).map (fun n => (n : ℚ))
  | (ip, some fp) =>
    if ip.all (fun c => c.isDigit) ∧ fp.all (fun c => c.isDigit) ∧ (ip ≠ [] ∨ fp ≠ []) then
      some ((digitsVal ip : ℚ) + (digitsVal fp : ℚ) / ((10 : ℚ) ^ fp.length))
    else none

/-- The exponent of a Python float literal: an optional sign and a nonempty
digit run. -/
def expVal? (l : List Char) : Option Int :=
  match l with
  | [] => none
  | c :: rest =>
    if c = '+' then (decDigits? rest).map (fun n => (n : Int))
    else if c = '-' then (decDigits? rest).map (fun n => -(n : Int))
    else (decDigits? (c :: rest)).map (fun n => (n : Int))

/-- Scale a rational by a power of ten. -/
def scalePow10 (m : ℚ) (e : Int) : ℚ :=
  if 0 ≤ e then m * (10 : ℚ) ^ e.toNat else m / (10 : ℚ) ^ (-e).toNat

/-- Python `float(value_str)` on an already-stripped string, restricted to
the decimal literal forms `[sign] (digits [. digits] | . digits)
[(e|E) [sign] digits]`, yielding the exact rational value. -/
def floatParse (s : String) : Option ℚ := do
  let (sign, l) :=
    match s.toList with
    | '+' :: rest => ((1 : ℚ), rest)
    | '-' :: rest => ((-1 : ℚ), rest)
    | l => ((1 : ℚ), l)
  match splitAtFirst (fun c => c = 'e' ∨ c = 'E') l with
  | (mant, none) => do
    let m ← mantissa? mant
    pure (sign * m)
  | (mant, some ex) => do
    let m ← mantissa? mant
    let e ← expVal? ex
    pure (scalePow10 (sign * m) e)

/-- Python `"." in value_str` for the single-character needle. -/
def hasDot (s : String) : Bool :=
  s.toList.any (fun c => c = '.')

/-- Python `value_str[1:-1]`. -/
def stripInner (s : String) : String :=
  String.mk ((s.toList.drop 1).dropLast)

/-- `SQLParser._parse_value`, translated clause for clause: strip, quoted
string, case-insensitive TRUE/FALSE, then the numeric attempt — `float`
when a decimal point is present, `int` otherwise — falling back to the raw
text when it raises `ValueError`. -/
def parseValue (value_str0 : String) : Value :=
  let value_str := value_str0.trim
  if (value_str.startsWith "'" && value_str.endsWith "'") ||
      (value_str.startsWith "\"" && value_str.endsWith "\"") then
    .vStr (stripInner value_str)
  else if value_str.toUpper = "TRUE" || value_str.toUpper = "FALSE" then
    .vBool (value_str.toUpper = "TRUE")
  else if hasDot value_str then
    match floatParse value_str with
    | some q => .vFloat q
    | none => .vStr value_str
  else
    match intParse value_str with
    | some n => .vInt n
    | none => .vStr value_str

/-- Modelled from the spec's literal-parsing words, for comparison with
`parseValue`: quotes stripped when wrapped in matching quotes, unquoted
TRUE/FALSE as booleans, otherwise an integer when integer parsing succeeds,
a float when the text contains a decimal point and float parsing succeeds,
and the raw text as a string when no numeric parse succeeds. -/
def parseValueSpec (value_str0 : String) : Value :=
  let s := value_str0.trim
  if (s.startsWith "'" && s.endsWith "'") ||
      (s.startsWith "\"" && s.endsWith "\"") then
    .vStr (stripInner s)
  else if s.toUpper = "TRUE" || s.toUpper = "FALSE" then
    .vBool (s.toUpper = "TRUE")
  else
    match intParse s with
    | some n => .vInt n
    | none =>
      if hasDot s then
        match floatParse s with
        | some q => .vFloat q
        | none => .vStr s
      else .vStr s

/-- Whether a character list starts with the given pattern. -/
def listStartsWith : List Char → List Char → Bool
  | [], _ => true
  | _ :: _, [] => false
  | p :: ps, c :: cs => p = c && listStartsWith ps cs

/-- Whether a character list contains the given pattern as a contiguous
subsequence. -/
def listContainsSeq (pat : List Char) : List Char → Bool
  | [] => pat.isEmpty
  | c :: rest => listStartsWith pat (c :: rest) || listContainsSeq pat rest

/-- Python `needle in haystack` on strings. -/
def strContains (haystack needle : String) : Bool :=
  listContainsSeq needle.toList haystack.toList

/-- Table states reachable from a freshly created table through the
mutations the engine performs: inserts, updates (successful or failed
partway), per-row deletes, and the clear-all of a predicate-free DELETE. -/
inductive ReachableTable : Table → Prop where
  | created (schema : Schema) : ReachableTable (Table.create schema)
  | insertStep {t t' : Table} {values : Dict} {id : Nat} :
      ReachableTable t → t.insert values = .ok (t', id) → ReachableTable t'
  | updateStep {t : Table} (i : Nat) (updates : List (String × Value)) :
      ReachableTable t → ReachableTable (t.update i updates).2
  | deleteStep {t t' : Table} {i : Nat} :
      ReachableTable t → t.delete i = .ok t' → ReachableTable t'
  | clearStep {t : Table} :
      ReachableTable t → ReachableTable { t with rows := [] }

/-- Example INT primary-key column `id`. -/
def exIdCol : Column :=
  { name := "id", data_type := .INT, primary_key := true }

/-- Example schema `t (id INT PRIMARY KEY)`. -/
def exSchema : Schema :=
  { table_name := "t", columns := [exIdCol] }

/-- Example empty table over `exSchema`. -/
def exEmpty : Table := Table.create exSchema

/-- Insert discarding the error case, for building concrete states. -/
def insertD (t : Table) (vs : Dict) : Table :=
  match t.insert vs with
  | .ok (t', _) => t'
  | .error _ => t

/-- Delete discarding the error case, for building concrete states. -/
def deleteD (t : Table) (i : Nat) : Table :=
  match t.delete i with
  | .ok t' => t'
  | .error _ => t

/-- Example table with one row `{id: 1}`. -/
def exT1 : Table := insertD exEmpty [("id", .vInt 1)]

/-- Example table with rows `{id: 1}, {id: 2}`. -/
def exT12 : Table := insertD exT1 [("id", .vInt 2)]

/-- Example table with rows `{id: 1}, {id: 2}, {id: 3}`. -/
def exT123 : Table := insertD exT12 [("id", .vInt 3)]

/-- `exT12` after `delete(0)`. -/
def exT12del : Table := deleteD exT12 0

/-- `exT1` after `delete(0)`: an empty table whose `next_row_id` is 1. -/
def exT1del : Table := deleteD exT1 0

/-- Database holding `exT123` under name `t`. -/
def exDb123 : Database := ⟨[("t", exT123)]⟩

/-- The statement `DELETE FROM t WHERE id = 2`. -/
def exDelStmt : DeleteStmt :=
  { table_name := "t", where_clause := some ("id", "=", .vInt 2) }

/-- The statement `SELECT * FROM t`. -/
def exSelAll : SelectStmt := { table_name := "t", columns := [] }

/-- `exDb123` after executing `DELETE FROM t WHERE id = 2`. -/
def exDbAfterDel : Database := (execute exDb123 (.delete exDelStmt)).2

/-- The table named `t` of `exDbAfterDel`. -/
def exTafterDel : Table := (exDbAfterDel.get_table "t").getD exEmpty

/-- Example TEXT NOT NULL column `name`. -/
def exNameCol : Column :=
  { name := "name", data_type := .TEXT, nullable := false }

/-- Example schema `t (id INT PRIMARY KEY, name TEXT NOT NULL)`. -/
def exSchema2 : Schema :=
  { table_name := "t", columns := [exIdCol, exNameCol] }

/-- Example table over `exSchema2` holding `{id: 1, name: "a"}`. -/
def exU0 : Table :=
  insertD (Table.create exSchema2) [("id", .vInt 1), ("name", .vStr "a")]

/-- The message of the failed duplicate-id insert of `c4_counterexample`. -/
def exMissingMsg : String := "Missing required column(s): name (TEXT)"

/-- Example schema `A (x INT, c TEXT)` for the join counterexample. -/
def exASchema : Schema :=
  { table_name := "A", columns := [{ name := "x", data_type := .INT },
                                   { name := "c", data_type := .TEXT }] }

/-- Example schema `B (y INT)`. -/
def exBSchema : Schema :=
  { table_name := "B", columns := [{ name := "y", data_type := .INT }] }

/-- Table A with one row `{x: 1}` (its nullable column `c` omitted). -/
def exTA : Table := insertD (Table.create exASchema) [("x", .vInt 1)]

/-- Table B with one row `{y: 1}`. -/
def exTB : Table := insertD (Table.create exBSchema) [("y", .vInt 1)]

/-- Database holding tables A and B. -/
def exDbJoin : Database := ⟨[("A", exTA), ("B", exTB)]⟩

/-- The statement `SELECT * FROM A JOIN B ON A.x = B.y`. -/
def exSelJoin : SelectStmt :=
  { table_name := "A", columns := [], join_table := some "B",
    join_on := some ("A.x", "B.y") }

/-- The statement `SELECT * FROM A JOIN B ON A.x = B.y` over arbitrary
table and column names, as C7 quantifies it. -/
def joinSelectStmt (A B x y : String) : SelectStmt :=
  { table_name := A, columns := [], where_clause := none,
    join_table := some B, join_on := some (A ++ "." ++ x, B ++ "." ++ y) }

/-- The statement `UPDATE t SET id = 1 WHERE id = 2`. -/
def exUpdDup : UpdateStmt :=
  { table_name := "t", updates := [("id", .vInt 1)],
    where_clause := some ("id", "=", .vInt 2) }

/-- C1. The claimed invariant — after any sequence of insert, update and
delete operations every present row's primary-key value maps via the PK
index to the row's current position — fails on the code: after inserting
rows with ids 1 and 2 and deleting the row at position 0, the surviving row
with id 2 sits at position 0, yet the PK index still maps 2 to its old
position 1 (`Table.delete` removes only the deleted row's entries and
shifts the later rows without repairing their index entries). -/
theorem c1_pk_index_stale_after_delete :
    exT12del.rows.map (fun r => r.get "id") = [.vInt 2] ∧
    exT12del.primary_key_index.lookup (.vInt 2) = [1] ∧
    exT12del.primary_key_index.lookup (.vInt 2) ≠ [0] := by
  refine ⟨by decide, by decide, by decide⟩

/-- C2. In the scripted scenario — insert ids 1, 2, 3, then
`DELETE FROM t WHERE id = 2`, then `SELECT * FROM t` — the select does
return exactly the rows with ids 1 and 3, but the subsequent
`get_by_primary_key(3)` does not return the row with id 3: the PK index
still holds the stale position 2, and indexing the 2-element row list with
it raises `IndexError`. -/
theorem c2_get_by_primary_key_fails_after_shift :
    (execute exDb123 (.delete exDelStmt)).1.success = true ∧
    (execute exDbAfterDel (.select exSelAll)).1.data =
      [[("id", .vInt 1)], [("id", .vInt 3)]] ∧
    exTafterDel.get_by_primary_key (.vInt 3) = .error "list index out of range" := by
  refine ⟨by decide, by decide, by rfl⟩

/-- C3. The identity reported for a successful insert is the table's
`next_row_id` counter, not the row count immediately before the append:
after inserting one row and deleting it, the table is empty (row count 0,
so the new row's 0-based position is 0), yet the next insert reports
`ID: 1` and stores 1 — not the row's position 0 — into the PK index. -/
theorem c3_reported_id_not_position :
    exT1del.rows.length = 0 ∧
    (execInsert ⟨[("t", exT1del)]⟩
      { table_name := "t", columns := ["id"], values := [.vInt 2] }).1.message =
      "1 row inserted (ID: 1)" ∧
    (insertD exT1del [("id", .vInt 2)]).primary_key_index.lookup (.vInt 2) = [1] ∧
    (insertD exT1del [("id", .vInt 2)]).rows.length = 1 := by
  refine ⟨by decide, by decide, by decide, by decide⟩

/-- C8. A Delete statement without a WHERE predicate clears the row list
without touching any index: deleting all rows of a table holding `{id: 1}`
reports success, leaves the table empty, yet the PK index still maps 1 to
position 0 — an index entry referring to a deleted row. -/
theorem c8_delete_all_leaves_index_entries :
    (execute ⟨[("t", exT1)]⟩ (.delete { table_name := "t" })).1.success = true ∧
    (((execute ⟨[("t", exT1)]⟩ (.delete { table_name := "t" })).2.get_table "t").getD
      exEmpty).rows = [] ∧
    (((execute ⟨[("t", exT1)]⟩ (.delete { table_name := "t" })).2.get_table "t").getD
      exEmpty).primary_key_index.lookup (.vInt 1) = [0] := by
  refine ⟨by decide, by decide, by decide⟩

/-- C5. The engine's execute boundary never lets an error escape: for every
statement and database state, the dispatch either returns its handler's
result unchanged, or the raised error is converted into a `QueryResult`
with `success = false`, the `Error: `-prefixed message, empty data and
default stats, leaving the database untouched. -/
theorem c5_execute_never_throws (db : Database) (stmt : Stmt) :
    (∃ q db', executeCore db stmt = .ok (q, db') ∧ execute db stmt = (q, db')) ∨
    (∃ e, executeCore db stmt = .error e ∧
      execute db stmt =
        ({ success := false, data := [], message := "Error: " ++ e, stats := {} }, db)) := by
  cases h : executeCore db stmt with
  | ok r =>
    obtain ⟨q, db'⟩ := r
    exact Or.inl ⟨q, db', rfl, by simp [execute, h]⟩
  | error e =>
    exact Or.inr ⟨e, rfl, by simp [execute, h]⟩

/-- A digit run cannot contain a decimal point. -/
theorem decDigits?_eq_none_of_dot {l : List Char} (h : '.' ∈ l) :
    decDigits? l = none := by
  unfold decDigits?
  rw [if_neg]
  rintro ⟨-, hall⟩
  have := List.all_eq_true.mp hall _ h
  simp at this

/-- Python `int` parsing fails on any string containing a decimal point. -/
theorem intParse_eq_none_of_hasDot {s : String} (h : hasDot s = true) :
    intParse s = none := by
  unfold hasDot at h
  rw [List.any_eq_true] at h
  obtain ⟨c, hc, hcd⟩ := h
  have hceq : c = '.' := of_decide_eq_true hcd
  have hdot : '.' ∈ s.toList := hceq ▸ hc
  unfold intParse
  revert hdot
  generalize s.toList = l
  intro hdot
  cases l with
  | nil => simp at hdot
  | cons c0 rest =>
    by_cases h0 : c0 = '+'
    · have hrest : '.' ∈ rest := by
        rcases List.mem_cons.mp hdot with h' | h'
        · exact absurd (h' ▸ h0) (by decide)
        · exact h'
      simp [h0, decDigits?_eq_none_of_dot hrest]
    · by_cases h1 : c0 = '-'
      · have hrest : '.' ∈ rest := by
          rcases List.mem_cons.mp hdot with h' | h'
          · exact absurd (h' ▸ h1) (by decide)
          · exact h'
        simp [h0, h1, decDigits?_eq_none_of_dot hrest]
      · have : '.' ∈ c0 :: rest := hdot
        simp [h0, h1, decDigits?_eq_none_of_dot this]

/-- C9. Literal parsing follows the spec's uniform rules: the translated
`_parse_value` agrees on every input string with the rule list as the spec
words it — matching-quote wrapping stripped first, then case-insensitive
TRUE/FALSE, then an integer when integer parsing succeeds, then a float
when the text contains a decimal point and float parsing succeeds, and the
raw text otherwise. -/
theorem c9_parse_value_follows_spec_rules (s : String) :
    parseValue s = parseValueSpec s := by
  unfold parseValue parseValueSpec
  by_cases hq : (s.trim.startsWith "'" && s.trim.endsWith "'") ||
      (s.trim.startsWith "\"" && s.trim.endsWith "\"")
  · simp [hq]
  · by_cases hb : s.trim.toUpper = "TRUE" ∨ s.trim.toUpper = "FALSE"
    · rcases hb with hb | hb <;> simp [hq, hb]
    · push_neg at hb
      obtain ⟨hb1, hb2⟩ := hb
      by_cases hd : hasDot s.trim
      · simp [hq, hb1, hb2, hd, intParse_eq_none_of_hasDot hd]
      · simp [hq, hb1, hb2, hd]

/-- A fold whose step preserves the row list preserves the row list. -/
theorem foldl_rows_invariant {f : Table → Nat → Table}
    (hf : ∀ t i, (f t i).rows = t.rows) :
    ∀ (l : List Nat) (t : Table), (l.foldl f t).rows = t.rows := by
  intro l
  induction l with
  | nil => intro t; rfl
  | cons a l ih =>
    intro t
    rw [List.foldl_cons, ih, hf]

/-- Saving a table and loading the document back reproduces the row list
verbatim (the load-time fold only rebuilds indexes). -/
theorem load_save_rows (t : Table) : (Table.load t.save).rows = t.rows := by
  unfold Table.load
  rw [foldl_rows_invariant]
  · show (t.save.rows.map (fun d => (⟨d⟩ : Row))) = t.rows
    show ((t.rows.map Row.to_dict).map (fun d => (⟨d⟩ : Row))) = t.rows
    rw [List.map_map]
    exact List.map_id t.rows
  · intro t' i
    cases hg : t'.rows.get? i with
    | none => simp [hg]
    | some row =>
      simp only [hg]
      cases t.save.schema.get_primary_key_column with
      | none => rfl
      | some pk_col =>
        by_cases hnn : row.get pk_col.name ≠ Value.vNull <;> simp [hnn]

/-- C6. Round-trip persistence: for every table state reachable through the
engine's insert, update and delete mutations, saving the table document and
loading it into a fresh table yields a row collection equal — even as an
ordered list, hence also as an unordered collection of column-name-to-value
mappings — to the in-memory rows before saving. -/
theorem c6_save_load_roundtrip (t : Table) (_h : ReachableTable t) :
    (((Table.load t.save).rows.map Row.to_dict : List Dict) : Multiset Dict) =
      ((t.rows.map Row.to_dict : List Dict) : Multiset Dict) := by
  rw [load_save_rows]

/-- Witness for C6 at a concrete reachable state: two inserts followed by a
delete. -/
theorem c6_save_load_roundtrip_witness :
    ReachableTable exT12del ∧
    (((Table.load exT12del.save).rows.map Row.to_dict : List Dict) : Multiset Dict) =
      ((exT12del.rows.map Row.to_dict : List Dict) : Multiset Dict) := by
  have h1 : ReachableTable exEmpty := ReachableTable.created exSchema
  have h2 : ReachableTable exT1 :=
    ReachableTable.insertStep h1
      (show exEmpty.insert [("id", .vInt 1)] = .ok (exT1, 0) from rfl)
  have h3 : ReachableTable exT12 :=
    ReachableTable.insertStep h2
      (show exT1.insert [("id", .vInt 2)] = .ok (exT12, 1) from rfl)
  have h4 : ReachableTable exT12del :=
    ReachableTable.deleteStep h3 (show exT12.delete 0 = .ok exT12del from rfl)
  exact ⟨h4, c6_save_load_roundtrip exT12del h4⟩

/-- The value-mutation loop of `Table.update` fails exactly when some
assignment names an unknown column or carries a value failing its column's
type check, regardless of the dict state it starts from. -/
theorem updateValues_error_iff (schema : Schema) :
    ∀ (updates : List (String × Value)) (vals : Dict),
    (∃ e pv, updateValues schema vals updates = .error (e, pv)) ↔
    (∃ p ∈ updates, schema.get_column p.1 = none ∨
      ∃ c, schema.get_column p.1 = some c ∧ c.validate p.2 = false) := by
  intro updates
  induction updates with
  | nil =>
    intro vals
    simp [updateValues]
  | cons hd tl ih =>
    intro vals
    obtain ⟨k, v⟩ := hd
    cases hc : schema.get_column k with
    | none =>
      refine iff_of_true ⟨"Column " ++ k ++ " not found", vals, ?_⟩
        ⟨(k, v), List.mem_cons_self _ _, Or.inl hc⟩
      simp [updateValues, hc]
    | some c =>
      by_cases hval : c.validate v
      · constructor
        · intro hone
          rw [show updateValues schema vals ((k, v) :: tl) =
              updateValues schema (dictSet vals k v) tl by
                simp [updateValues, hc, hval]] at hone
          obtain ⟨p, hp, hbad⟩ := (ih (dictSet vals k v)).mp hone
          exact ⟨p, List.mem_cons_of_mem _ hp, hbad⟩
        · rintro ⟨p, hp, hbad⟩
          rcases List.mem_cons.mp hp with hph | hpt
          · exfalso
            rw [hph] at hbad
            rcases hbad with hbad | ⟨c', hc', hval'⟩
            · rw [hc] at hbad; exact Option.noConfusion hbad
            · rw [hc] at hc'
              injection hc' with hcc
              rw [← hcc] at hval'
              rw [hval] at hval'
              exact Bool.noConfusion hval'
          · have := (ih (dictSet vals k v)).mpr ⟨p, hpt, hbad⟩
            rw [show updateValues schema vals ((k, v) :: tl) =
                updateValues schema (dictSet vals k v) tl by
                  simp [updateValues, hc, hval]]
            exact this
      · refine iff_of_true ⟨"Invalid value for column " ++ k, vals, ?_⟩
          ⟨(k, v), List.mem_cons_self _ _, Or.inr ⟨c, hc, by simpa using hval⟩⟩
        simp [updateValues, hc, hval]

/-- C10. `Table.update` raises exactly when the row index is out of range,
an assignment names a column absent from the schema, or a new value fails
its column's type check — never for a duplicate primary-key or unique
value; accordingly `UPDATE t SET id = 1 WHERE id = 2` on a table with rows
`{id:1}, {id:2}` (id the primary key) succeeds and leaves both rows holding
id 1, the PK index mapping 1 to both positions. -/
theorem c10_update_error_conditions :
    (∀ (t : Table) (i : Nat) (updates : List (String × Value)),
      (∃ e, (t.update i updates).1 = .error e) ↔
        (t.rows.length ≤ i ∨ ∃ p ∈ updates,
          t.schema.get_column p.1 = none ∨
          ∃ c, t.schema.get_column p.1 = some c ∧ c.validate p.2 = false)) ∧
    (execUpdate ⟨[("t", exT12)]⟩ exUpdDup).1.success = true ∧
    ((((execUpdate ⟨[("t", exT12)]⟩ exUpdDup).2.get_table "t").getD exEmpty).rows.map
      (fun r => r.get "id")) = [.vInt 1, .vInt 1] ∧
    (((execUpdate ⟨[("t", exT12)]⟩ exUpdDup).2.get_table "t").getD
      exEmpty).primary_key_index.lookup (.vInt 1) = [0, 1] := by
  refine ⟨?_, by decide, by decide, by decide⟩
  intro t i updates
  cases hg : t.rows.get? i with
  | none =>
    refine iff_of_true ⟨"Row not found", ?_⟩ (Or.inl (List.get?_eq_none.mp hg))
    rw [List.get?_eq_getElem?] at hg
    simp [Table.update, hg]
  | some row =>
    have hlen : ¬ t.rows.length ≤ i := by
      intro hle
      rw [List.get?_eq_none.mpr hle] at hg
      exact Option.noConfusion hg
    rw [List.get?_eq_getElem?] at hg
    cases hv : updateValues t.schema row.values updates with
    | error ep =>
      obtain ⟨e, pv⟩ := ep
      refine iff_of_true ⟨e, ?_⟩
        (Or.inr ((updateValues_error_iff t.schema updates row.values).mp ⟨e, pv, hv⟩))
      simp [Table.update, hg, hv]
    | ok nv =>
      refine iff_of_false ?_ ?_
      · rintro ⟨e, he⟩
        rw [show (t.update i updates).1 = .ok () by simp [Table.update, hg, hv]] at he
        exact Except.noConfusion he
      · rintro (hle | hbad)
        · exact hlen hle
        · obtain ⟨e, pv, hev⟩ :=
            (updateValues_error_iff t.schema updates row.values).mpr hbad
          rw [hv] at hev
          exact Except.noConfusion hev

/-- If no non-nullable column is missing and no present value fails its
type check, the row validates: the two detailed error searches of
`Table.insert` together cover every way `Row.validate` can fail. -/
theorem valid_of_no_missing_no_mismatch (schema : Schema) (values : Dict)
    (hm : missingColumns schema values = [])
    (hf : firstMismatch schema values = none) :
    rowValidate schema ⟨values⟩ = true := by
  unfold rowValidate
  rw [List.all_eq_true]
  intro col hcol
  cases hd : dictGet? values col.name with
  | none =>
    show col.nullable = true
    by_contra hnull
    have hpred : ((dictGet? values col.name).isNone && !col.nullable) = true := by
      rw [hd]
      simp
      exact Bool.eq_false_iff.mpr hnull
    have : col ∈ missingColumns schema values :=
      List.mem_filter.mpr ⟨hcol, hpred⟩
    rw [hm] at this
    exact absurd this (List.not_mem_nil col)
  | some v =>
    show col.validate v = true
    by_contra hval
    have hpred : (match dictGet? values col.name with
        | some v => !col.validate v
        | none => false) = true := by
      rw [hd]
      simp
      exact Bool.eq_false_iff.mpr hval
    have : (firstMismatch schema values).isSome :=
      List.find?_isSome.mpr ⟨col, hcol, hpred⟩
    rw [hf] at this
    exact Bool.noConfusion this

/-- An insert whose row fails validation always raises: either the
missing-columns message or the first type-mismatch message. -/
theorem insert_error_of_invalid (t : Table) (values : Dict)
    (h : rowValidate t.schema ⟨values⟩ = false) :
    ∃ e, t.insert values = .error e := by
  unfold Table.insert
  rw [h]
  by_cases hm : missingColumns t.schema values = []
  · cases hfm : firstMismatch t.schema values with
    | none =>
      exact absurd (valid_of_no_missing_no_mismatch t.schema values hm hfm)
        (by rw [h]; exact Bool.noConfusion)
    | some col =>
      refine ⟨"Invalid type for column '" ++ col.name ++ "': expected " ++
        col.data_type.value ++ ", got " ++ (dictGet values col.name).typeName, ?_⟩
      simp [hm, hfm]
  · refine ⟨"Missing required column(s): " ++
      String.intercalate ", "
        ((missingColumns t.schema values).map
          (fun col => col.name ++ " (" ++ col.data_type.value ++ ")")), ?_⟩
    have : (missingColumns t.schema values).isEmpty = false := by
      cases hcase : missingColumns t.schema values with
      | nil => exact absurd hcase hm
      | cons a l => rfl
    simp [this]

/-- A duplicate primary-key value makes `insertChecked` raise the
`already exists` error. -/
theorem insertChecked_duplicate_pk (t : Table) (values : Dict) (row : Row)
    (pk : Column) (v : Value)
    (hpk : t.schema.get_primary_key_column = some pk)
    (hv : dictGet? values pk.name = some v)
    (hdup : (t.primary_key_index.lookup v).isEmpty = false) :
    t.insertChecked values row =
      .error ("Primary key " ++ pk.name ++ "=" ++ v.pyStr ++ " already exists") := by
  simp [Table.insertChecked, pkViolation?, hpk, hv, hdup]

/-- C4 (amended). An insert whose primary-key value is already present in
the PK index always fails with a `ValueError`, surfaced by the engine as
`success = false` with the database state unchanged; the message contains
"already exists" exactly when the row passes schema validation — a
validation failure (missing required column or type mismatch) is reported
first with its own message. -/
theorem c4_duplicate_pk_insert_rejected
    (t : Table) (values : Dict) (pk : Column) (v : Value)
    (db : Database) (name : String) (cols : List String) (vals : List Value)
    (hpk : t.schema.get_primary_key_column = some pk)
    (hv : dictGet? values pk.name = some v)
    (hdup : (t.primary_key_index.lookup v).isEmpty = false)
    (hdb : db.get_table name = some t)
    (hzip : dictOfZip cols vals = values) :
    (∃ e, t.insert values = .error e) ∧
    (rowValidate t.schema ⟨values⟩ = true →
      t.insert values =
        .error ("Primary key " ++ pk.name ++ "=" ++ v.pyStr ++ " already exists")) ∧
    (execInsert db ⟨name, cols, vals⟩).1.success = false ∧
    (execInsert db ⟨name, cols, vals⟩).2 = db := by
  have hvalid : rowValidate t.schema ⟨values⟩ = true →
      t.insert values =
        .error ("Primary key " ++ pk.name ++ "=" ++ v.pyStr ++ " already exists") := by
    intro hval
    unfold Table.insert
    rw [hval]
    exact insertChecked_duplicate_pk t values ⟨values⟩ pk v hpk hv hdup
  have hfails : ∃ e, t.insert values = .error e := by
    cases hval : rowValidate t.schema ⟨values⟩ with
    | true => exact ⟨_, hvalid hval⟩
    | false => exact insert_error_of_invalid t values hval
  obtain ⟨e, he⟩ := hfails
  refine ⟨⟨e, he⟩, hvalid, ?_, ?_⟩ <;>
    simp [execInsert, hdb, hzip, he]

/-- C4 counterexample. On the table `t (id INT PRIMARY KEY, name TEXT NOT
NULL)` already holding `{id:1, name:"a"}`, the insert of `{id:1}` has its
primary-key value 1 present in the PK index, yet fails with the
missing-column message, which does not contain "already exists". -/
theorem c4_counterexample :
    exU0.schema.get_primary_key_column = some exIdCol ∧
    dictGet? [("id", Value.vInt 1)] exIdCol.name = some (.vInt 1) ∧
    (exU0.primary_key_index.lookup (.vInt 1)).isEmpty = false ∧
    exU0.insert [("id", .vInt 1)] = .error exMissingMsg ∧
    strContains exMissingMsg "already exists" = false := by
  refine ⟨by decide, by decide, by decide, by rfl, by decide⟩

/-- Witness for C4 at a concrete duplicate-id insert whose row is valid. -/
theorem c4_duplicate_pk_insert_rejected_witness :
    (exU0.schema.get_primary_key_column = some exIdCol ∧
      dictGet? [("id", Value.vInt 1), ("name", Value.vStr "b")] exIdCol.name =
        some (.vInt 1) ∧
      (exU0.primary_key_index.lookup (.vInt 1)).isEmpty = false ∧
      (⟨[("t", exU0)]⟩ : Database).get_table "t" = some exU0 ∧
      dictOfZip ["id", "name"] [.vInt 1, .vStr "b"] =
        [("id", Value.vInt 1), ("name", Value.vStr "b")]) ∧
    ((∃ e, exU0.insert [("id", Value.vInt 1), ("name", Value.vStr "b")] = .error e) ∧
      (rowValidate exU0.schema ⟨[("id", Value.vInt 1), ("name", Value.vStr "b")]⟩ = true →
        exU0.insert [("id", Value.vInt 1), ("name", Value.vStr "b")] =
          .error ("Primary key " ++ exIdCol.name ++ "=" ++ (Value.vInt 1).pyStr ++
            " already exists")) ∧
      (execInsert ⟨[("t", exU0)]⟩
        ⟨"t", ["id", "name"], [.vInt 1, .vStr "b"]⟩).1.success = false ∧
      (execInsert ⟨[("t", exU0)]⟩
        ⟨"t", ["id", "name"], [.vInt 1, .vStr "b"]⟩).2 = ⟨[("t", exU0)]⟩) := by
  refine ⟨⟨by decide, by decide, by decide, by decide, by decide⟩, ?_⟩
  exact c4_duplicate_pk_insert_rejected exU0
    [("id", Value.vInt 1), ("name", Value.vStr "b")] exIdCol (.vInt 1)
    ⟨[("t", exU0)]⟩ "t" ["id", "name"] [.vInt 1, .vStr "b"]
    (by decide) (by decide) (by decide) (by decide) (by decide)

/-- Dict lookup on a cons cell. -/
theorem dictGet?_cons (k' : String) (v' : Value) (rest : Dict) (k : String) :
    dictGet? ((k', v') :: rest) k = if k' = k then some v' else dictGet? rest k := by
  by_cases h : k' = k <;> simp [dictGet?, List.find?_cons, h]

/-- Setting a key makes its lookup return the new value. -/
theorem dictGet?_dictSet_self (d : Dict) (k : String) (v : Value) :
    dictGet? (dictSet d k v) k = some v := by
  induction d with
  | nil => simp [dictSet, dictGet?_cons]
  | cons p rest ih =>
    obtain ⟨k', v'⟩ := p
    by_cases h : k' = k
    · subst h; simp [dictSet, dictGet?_cons]
    · simp [dictSet, h, dictGet?_cons, ih]

/-- Setting one key leaves every other key's lookup unchanged. -/
theorem dictGet?_dictSet_ne (d : Dict) {k' k : String} (v : Value) (h : k' ≠ k) :
    dictGet? (dictSet d k' v) k = dictGet? d k := by
  induction d with
  | nil => simp [dictSet, dictGet?_cons, h, dictGet?]
  | cons p rest ih =>
    obtain ⟨k0, v0⟩ := p
    by_cases h0 : k0 = k'
    · subst h0; simp [dictSet, dictGet?_cons, h]
    · simp [dictSet, h0, dictGet?_cons, ih]

/-- Strings with equal character data are equal. -/
theorem stringDataEq {a b : String} (h : a.data = b.data) : a = b := by
  cases a; cases b; exact congrArg String.mk h

/-- Character data of a dot-qualified key. -/
theorem qual_data (T k : String) : (T ++ "." ++ k).data = T.data ++ '.' :: k.data := by
  rw [String.data_append, String.data_append, List.append_assoc]
  rfl

/-- A string without a dot has no dot among its characters. -/
theorem not_dot_mem_of_hasDot_false {s : String} (h : hasDot s = false) :
    '.' ∉ s.data := by
  intro hmem
  have ht : hasDot s = true := by
    unfold hasDot
    rw [List.any_eq_true]
    exact ⟨'.', hmem, by decide⟩
  rw [h] at ht
  exact Bool.noConfusion ht

/-- Splitting at the first dot of a dot-free-prefixed concatenation is
unambiguous. -/
theorem listSplitDotEq : ∀ (a b r s : List Char),
    '.' ∉ a → '.' ∉ b → a ++ '.' :: r = b ++ '.' :: s → a = b ∧ r = s := by
  intro a
  induction a with
  | nil =>
    intro b r s _ hb h
    cases b with
    | nil =>
      simp only [List.nil_append] at h
      injection h with _ h2
      exact ⟨rfl, h2⟩
    | cons c bs =>
      simp only [List.nil_append, List.cons_append] at h
      injection h with h1 _
      exact absurd (h1 ▸ List.mem_cons_self c bs) (fun hmem => hb hmem)
  | cons c as ih =>
    intro b r s ha hb h
    cases b with
    | nil =>
      simp only [List.cons_append, List.nil_append] at h
      injection h with h1 _
      exact absurd (h1 ▸ List.mem_cons_self c as) (fun hmem => ha hmem)
    | cons c' bs =>
      simp only [List.cons_append] at h
      injection h with h1 h2
      have hras : '.' ∉ as := fun hm => ha (List.mem_cons_of_mem _ hm)
      have hrbs : '.' ∉ bs := fun hm => hb (List.mem_cons_of_mem _ hm)
      obtain ⟨hab, hrs⟩ := ih bs r s hras hrbs h2
      exact ⟨by rw [h1, hab], hrs⟩

/-- Qualified keys of distinct dot-free table names never collide. -/
theorem qualKey_ne_cross {A B k k' : String} (hA : hasDot A = false)
    (hB : hasDot B = false) (hAB : A ≠ B) :
    A ++ "." ++ k ≠ B ++ "." ++ k' := by
  intro h
  have hd := congrArg String.data h
  rw [qual_data, qual_data] at hd
  obtain ⟨hab, -⟩ := listSplitDotEq A.data B.data k.data k'.data
    (not_dot_mem_of_hasDot_false hA) (not_dot_mem_of_hasDot_false hB) hd
  exact hAB (stringDataEq hab)

/-- Qualification by one table name is injective in the column name. -/
theorem qualKey_inj_same {T k k' : String} (h : T ++ "." ++ k = T ++ "." ++ k') :
    k = k' := by
  have hd := congrArg String.data h
  rw [qual_data, qual_data] at hd
  have h2 := List.append_cancel_left hd
  injection h2 with _ h3
  exact stringDataEq h3

/-- The qualifying fold leaves keys it never writes unchanged. -/
theorem qfold_get_other (T : String) (items : List (String × Value)) :
    ∀ (m : Dict) (K : String), (∀ p ∈ items, K ≠ T ++ "." ++ p.1) →
    dictGet? (items.foldl (fun m p => dictSet m (T ++ "." ++ p.1) p.2) m) K =
      dictGet? m K := by
  induction items with
  | nil => intro m K _; rfl
  | cons p rest ih =>
    intro m K h
    rw [List.foldl_cons,
      ih _ _ (fun q hq => h q (List.mem_cons_of_mem _ hq)),
      dictGet?_dictSet_ne _ _ (Ne.symm (h p (List.mem_cons_self _ _)))]

/-- The qualifying fold maps each present key (keys duplicate-free) to its
value under the qualified name. -/
theorem qfold_get_mem (T : String) (items : List (String × Value)) :
    ∀ (m : Dict) (k : String) (v : Value),
    (items.map Prod.fst).Nodup → (k, v) ∈ items →
    dictGet? (items.foldl (fun m p => dictSet m (T ++ "." ++ p.1) p.2) m)
      (T ++ "." ++ k) = some v := by
  induction items with
  | nil =>
    intro m k v _ hmem
    exact absurd hmem (List.not_mem_nil _)
  | cons p rest ih =>
    intro m k v hnd hmem
    obtain ⟨k0, v0⟩ := p
    rw [List.map_cons] at hnd
    have hnd' := List.nodup_cons.mp hnd
    rcases List.mem_cons.mp hmem with heq | hmem'
    · have hk : k = k0 := congrArg Prod.fst heq
      have hv : v = v0 := congrArg Prod.snd heq
      subst hk; subst hv
      rw [List.foldl_cons,
        qfold_get_other T rest _ _ ?_]
      · exact dictGet?_dictSet_self m (T ++ "." ++ k) v
      · intro q hq hKeq
        have hk1 : k = q.1 := qualKey_inj_same hKeq
        have hqm : q.1 ∈ rest.map Prod.fst := List.mem_map_of_mem Prod.fst hq
        rw [← hk1] at hqm
        exact hnd'.1 hqm
    · rw [List.foldl_cons]
      exact ih _ _ _ hnd'.2 hmem'

/-- In a merged join row, every key of the left row (its keys
duplicate-free) is present under the left table's qualification with its
value, provided the two dot-free table names differ. -/
theorem qualifyMerge_left {A B : String} (ld rd : Dict) {k : String} {v : Value}
    (hA : hasDot A = false) (hB : hasDot B = false) (hAB : A ≠ B)
    (hnd : (ld.map Prod.fst).Nodup) (hmem : (k, v) ∈ ld) :
    dictGet? (qualifyMerge A ld B rd) (A ++ "." ++ k) = some v := by
  unfold qualifyMerge
  rw [qfold_get_other B rd _ _ (fun p _ => qualKey_ne_cross hA hB hAB)]
  exact qfold_get_mem A ld _ _ _ hnd hmem

/-- In a merged join row, every key of the right row (its keys
duplicate-free) is present under the right table's qualification with its
value. -/
theorem qualifyMerge_right {A B : String} (ld rd : Dict) {k : String} {v : Value}
    (hnd : (rd.map Prod.fst).Nodup) (hmem : (k, v) ∈ rd) :
    dictGet? (qualifyMerge A ld B rd) (B ++ "." ++ k) = some v := by
  unfold qualifyMerge
  exact qfold_get_mem B rd _ _ _ hnd hmem

/-- Mapping over a filterMap pushes the map inside. -/
theorem map_filterMap_comm {α β γ : Type} (f : α → Option β) (g : β → γ)
    (l : List α) :
    (l.filterMap f).map g = l.filterMap (fun b => (f b).map g) := by
  induction l with
  | nil => rfl
  | cons a l ih =>
    cases hfa : f a <;> simp [List.filterMap_cons, hfa, ih]

/-- The length of an if-guarded filterMap is the length of the filter. -/
theorem length_filterMap_ite {α β : Type} (p : α → Bool) (g : α → β)
    (l : List α) :
    (l.filterMap (fun b => if p b then some (g b) else none)).length =
      (l.filter p).length := by
  induction l with
  | nil => rfl
  | cons a l ih =>
    by_cases hp : p a <;> simp [List.filterMap_cons, List.filter_cons, hp, ih]

/-- C7 (amended). For `SELECT * FROM A JOIN B ON A.x = B.y` (no WHERE)
over distinct dot-free table names, the result holds exactly one merged row
per ordered pair `(a, b)` of rows with `a.x == b.y`; each merged row is the
qualified merge of its pair and carries the key `A.k` with the left row's
value for every key `k` present in that left row's value mapping, and `B.k`
with the right row's value for every key present in the right row's value
mapping (schema columns absent from a row's values contribute no key);
conversely every matching pair's merge appears in the data. -/
theorem c7_join_pairs (db : Database) (ta tb : Table) (A B x y : String)
    (stmt : SelectStmt)
    (hstmt : stmt = joinSelectStmt A B x y)
    (hta : db.get_table A = some ta)
    (htb : db.get_table B = some tb)
    (hsplitL : splitDot2 (A ++ "." ++ x) = .ok (A, x))
    (hsplitR : splitDot2 (B ++ "." ++ y) = .ok (B, y))
    (hdotA : hasDot A = false) (hdotB : hasDot B = false) (hAB : A ≠ B)
    (hndA : ∀ r ∈ ta.rows, (r.values.map Prod.fst).Nodup)
    (hndB : ∀ r ∈ tb.rows, (r.values.map Prod.fst).Nodup) :
    (execute db (.select stmt)).2 = db ∧
    (execute db (.select stmt)).1.success = true ∧
    (execute db (.select stmt)).1.data.length =
      (ta.rows.map
        (fun a => (tb.rows.filter (fun b => pyEqB (a.get x) (b.get y))).length)).sum ∧
    (∀ m ∈ (execute db (.select stmt)).1.data,
      ∃ a ∈ ta.rows, ∃ b ∈ tb.rows, pyEqB (a.get x) (b.get y) = true ∧
        m = qualifyMerge A a.values B b.values ∧
        (∀ p ∈ a.values, dictGet? m (A ++ "." ++ p.1) = some p.2) ∧
        (∀ p ∈ b.values, dictGet? m (B ++ "." ++ p.1) = some p.2)) ∧
    (∀ a ∈ ta.rows, ∀ b ∈ tb.rows, pyEqB (a.get x) (b.get y) = true →
      qualifyMerge A a.values B b.values ∈ (execute db (.select stmt)).1.data) := by
  subst hstmt
  have hexec : execute db (.select (joinSelectStmt A B x y)) =
      (selResult (joinSelectStmt A B x y)
        (ta.rows.flatMap (fun a => tb.rows.filterMap (fun b =>
          if pyEqB (a.get x) (b.get y) then
            some (SelRow.joined (qualifyMerge A a.values B b.values) A B)
          else none)))
        (ta.rows.length + tb.rows.length), db) := by
    simp only [execute, executeCore, execSelect, execJoin, joinSelectStmt,
      hta, htb, hsplitL, hsplitR, Table.scan]
    rfl
  have hdata : (execute db (.select (joinSelectStmt A B x y))).1.data =
      ta.rows.flatMap (fun a => tb.rows.filterMap (fun b =>
        if pyEqB (a.get x) (b.get y) then
          some (qualifyMerge A a.values B b.values)
        else none)) := by
    rw [hexec]
    show (ta.rows.flatMap (fun a => tb.rows.filterMap (fun b =>
        if pyEqB (a.get x) (b.get y) then
          some (SelRow.joined (qualifyMerge A a.values B b.values) A B)
        else none))).map SelRow.to_dict = _
    rw [List.map_flatMap]
    refine congrArg _ (funext (fun a => ?_))
    rw [map_filterMap_comm]
    refine congrArg (fun fn => List.filterMap fn tb.rows) (funext (fun b => ?_))
    by_cases hc : pyEqB (a.get x) (b.get y) <;> simp [hc, SelRow.to_dict]
  refine ⟨by rw [hexec], by rw [hexec]; rfl, ?_, ?_, ?_⟩
  · rw [hdata, List.length_flatMap]
    refine congrArg List.sum
      (congrArg (fun fn => List.map fn ta.rows) (funext (fun a => ?_)))
    exact length_filterMap_ite (fun b => pyEqB (a.get x) (b.get y))
      (fun b => qualifyMerge A a.values B b.values) tb.rows
  · intro m hm
    rw [hdata] at hm
    obtain ⟨a, ha, hmf⟩ := List.mem_flatMap.mp hm
    obtain ⟨b, hb, hsome⟩ := List.mem_filterMap.mp hmf
    by_cases hc : pyEqB (a.get x) (b.get y)
    · rw [if_pos hc] at hsome
      injection hsome with hmerge
      refine ⟨a, ha, b, hb, hc, hmerge.symm, ?_, ?_⟩
      · intro p hp
        rw [← hmerge]
        exact qualifyMerge_left a.values b.values hdotA hdotB hAB
          (hndA a ha) (by exact hp)
      · intro p hp
        rw [← hmerge]
        exact qualifyMerge_right a.values b.values (hndB b hb) (by exact hp)
    · rw [if_neg hc] at hsome
      exact Option.noConfusion hsome
  · intro a ha b hb hc
    rw [hdata]
    exact List.mem_flatMap.mpr
      ⟨a, ha, List.mem_filterMap.mpr ⟨b, hb, by rw [if_pos hc]⟩⟩

/-- C7 counterexample. With A(x INT, c TEXT) holding the row `{x: 1}` (its
nullable column c unset) and B(y INT) holding `{y: 1}`,
`SELECT * FROM A JOIN B ON A.x = B.y` yields one merged row carrying only
`A.x` and `B.y`: `c` is a column of A, yet the key `A.c` is absent. -/
theorem c7_counterexample :
    (execute exDbJoin (.select exSelJoin)).1.data =
      [[("A.x", Value.vInt 1), ("B.y", Value.vInt 1)]] ∧
    exASchema.columns.map Column.name = ["x", "c"] ∧
    dictGet? [("A.x", Value.vInt 1), ("B.y", Value.vInt 1)] "A.c" = none := by
  refine ⟨by decide, by decide, by decide⟩

/-- Witness for C7 at the concrete two-table database. -/
theorem c7_join_pairs_witness :
    (exDbJoin.get_table "A" = some exTA ∧
      exDbJoin.get_table "B" = some exTB ∧
      splitDot2 ("A" ++ "." ++ "x") = .ok ("A", "x") ∧
      splitDot2 ("B" ++ "." ++ "y") = .ok ("B", "y") ∧
      hasDot "A" = false ∧ hasDot "B" = false ∧ "A" ≠ "B") ∧
    ((execute exDbJoin (.select exSelJoin)).2 = exDbJoin ∧
      (execute exDbJoin (.select exSelJoin)).1.success = true ∧
      (execute exDbJoin (.select exSelJoin)).1.data.length =
        (exTA.rows.map (fun a =>
          (exTB.rows.filter (fun b => pyEqB (a.get "x") (b.get "y"))).length)).sum ∧
      (∀ m ∈ (execute exDbJoin (.select exSelJoin)).1.data,
        ∃ a ∈ exTA.rows, ∃ b ∈ exTB.rows, pyEqB (a.get "x") (b.get "y") = true ∧
          m = qualifyMerge "A" a.values "B" b.values ∧
          (∀ p ∈ a.values, dictGet? m ("A" ++ "." ++ p.1) = some p.2) ∧
          (∀ p ∈ b.values, dictGet? m ("B" ++ "." ++ p.1) = some p.2)) ∧
      (∀ a ∈ exTA.rows, ∀ b ∈ exTB.rows, pyEqB (a.get "x") (b.get "y") = true →
        qualifyMerge "A" a.values "B" b.values ∈
          (execute exDbJoin (.select exSelJoin)).1.data)) := by
  refine ⟨⟨by decide, by decide, by decide, by decide, by decide, by decide,
    by decide⟩, ?_⟩
  exact c7_join_pairs exDbJoin exTA exTB "A" "B" "x" "y" exSelJoin
    (by decide) (by decide) (by decide) (by decide) (by decide) (by decide)
    (by decide) (by decide) (by decide) (by decide)

end RDBMS
